import Mathlib

/-!
# Verification of autogitter's reconciliation and sync engine

A shallow embedding, in Lean 4, of the parts of the `autogitter` repository
that its design document makes claims about:

* the reconciliation core of `internal/sync/sync.go` (`ComputeSourceStatus`
  lines 536-584 and the identical status construction inside `syncSource`
  lines 190-239), which classifies repositories as added / unchanged / removed;
* the strategy resolution path (`Run`, `fetchReposFromAPI`,
  `filterReposByRegex`, and the strategy switch of `ComputeSourceStatus`);
* the local state scanner `scanLocalRepos` together with `git.IsGitRepo`;
* the orphan "add" disposition (`guessFullName`, `getOrphanedRepos`, and the
  `case "add"` branch of `syncSource`);
* the parallel clone engine (`cloneReposParallel` / `cloneWorker`);
* the provider connectors' page handling (`GitHubConnector.fetchRepoPage`,
  `GiteaConnector.fetchRepoPage`, `BitbucketConnector.listReposCloud`);
* credential lookup (`connector.GetToken`, `connector.getGhCliToken`,
  `connector.GetEnvVarName`).

Go strings are modelled as Lean `String`; Go `[]string` as `List String`;
Go `map[string]bool` sets as the list of keys in the order a `range` loop
happens to produce them (Go map iteration order is unspecified, so theorems
quantify over that order, and facts that depend only on the key set are
proved for every enumeration order).  External effects (HTTP calls, the
filesystem, `git` invocations) are modelled by explicit parameters and by
event traces.
-/

namespace Autogitter


/-! ## String helpers: models of the Go standard library calls used

`splitSlash` models `strings.Split(s, "/")`: it cuts the character list at
every `'/'`, keeping empty pieces, and always returns at least one piece. -/

def splitSlashAux : List Char → List Char → List String
  | [], acc => [String.mk acc.reverse]
  | c :: cs, acc =>
    if c = '/' then String.mk acc.reverse :: splitSlashAux cs []
    else splitSlashAux cs (c :: acc)

def splitSlash (s : String) : List String :=
  splitSlashAux s.data []

/-- Model of `strings.HasPrefix(s, ".")`: whether the first character is a dot. -/
def firstCharIsDot (s : String) : Bool :=
  match s.data with
  | [] => false
  | c :: _ => c = '.'

/-- Model of `filepath.Join(a, b)` for the clean relative names this code joins. -/
def filepathJoin (a b : String) : String :=
  a ++ "/" ++ b

/-! ## The data model: `ui.DiffStatus` and `sync.RepoStatus` -/

/-- `ui.DiffStatus` (part_004 lines 47-53). -/
inductive DiffStatus
  | statusAdded
  | statusRemoved
  | statusUnchanged
deriving DecidableEq, Repr

/-- `sync.RepoStatus` (sync.go lines 45-52). -/
structure RepoStatus where
  name : String
  fullName : String
  localPath : String
  status : DiffStatus
  inConfig : Bool
  existsLocal : Bool
deriving DecidableEq, Repr

/-! ## The reconciliation core

`repoNameFromFullName` is sync.go lines 471-477: the basename of a full
name, via `strings.Split` on `/`.  `configuredRepos` is the key set of the
`configuredRepos` map built in lines 536-540 (and 191-195).
`declaredStatuses` and `orphanStatuses` are the two status-building loops of
`ComputeSourceStatus` (lines 552-570 and 572-584; `syncSource` lines 207-239
are the same code), and `computeStatuses` is their concatenation into the
single `statuses` slice.  `ls` is the scanned local repository set, listed
in the order the Go `range` loop over the `localRepos` map enumerates it. -/

def repoNameFromFullName (fullName : String) : String :=
  (splitSlash fullName).getLast?.getD fullName

def configuredRepos (repos : List String) : List String :=
  repos.map repoNameFromFullName

def declaredStatuses (lp : String) (repos ls : List String) : List RepoStatus :=
  repos.map (fun repo =>
    let repoName := repoNameFromFullName repo
    { name := repoName
      fullName := repo
      localPath := filepathJoin lp repoName
      status := if ls.contains repoName then DiffStatus.statusUnchanged
                else DiffStatus.statusAdded
      inConfig := true
      existsLocal := ls.contains repoName })

def orphanStatuses (lp : String) (repos ls : List String) : List RepoStatus :=
  (ls.filter (fun n => !((configuredRepos repos).contains n))).map (fun n =>
    { name := n
      fullName := ""
      localPath := filepathJoin lp n
      status := DiffStatus.statusRemoved
      inConfig := false
      existsLocal := true })

def computeStatuses (lp : String) (repos ls : List String) : List RepoStatus :=
  declaredStatuses lp repos ls ++ orphanStatuses lp repos ls

/-- The basenames carrying a given classification in a status list. -/
def statusNames (s : DiffStatus) (out : List RepoStatus) : List String :=
  (out.filter (fun r => r.status == s)).map (fun r => r.name)

/-! ## The local state scanner

`scanLocalRepos` is sync.go lines 444-469.  A directory entry is modelled by
its name, whether it is itself a directory, and what `os.Stat` of its `.git`
child returns — the three cases `git.IsGitRepo` (part_004 lines 414-421)
distinguishes: no `.git`, `.git` exists but is not a directory, `.git` is a
directory.  Reading the root directory (`os.ReadDir`) either yields the entry
list, fails with a not-exist error, or fails with some other error. -/

/-- What `os.Stat(filepath.Join(path, ".git"))` reports for one entry. -/
inductive GitMarker
  | missing
  | file
  | dir
deriving DecidableEq, Repr

/-- `git.IsGitRepo`: true exactly when `.git` exists and is a directory. -/
def isGitRepo : GitMarker → Bool
  | GitMarker.dir => true
  | _ => false

structure FsEntry where
  name : String
  isDir : Bool
  gitMarker : GitMarker
deriving DecidableEq, Repr

/-- The outcome of `os.ReadDir(path)` on the source's local root. -/
inductive DirRead
  | ok (entries : List FsEntry)
  | errNotExist
  | errOther
deriving DecidableEq, Repr

inductive ScanErr
  | notExist
  | other
deriving DecidableEq, Repr

/-- `scanLocalRepos` (sync.go 444-469): on a readable root, keep the names of
the first-level entries that are directories, are not dot-prefixed, and carry
a `.git` marker directory; on a read error, return the (empty) map together
with the error. -/
def scanLocalRepos (d : DirRead) : List String × Option ScanErr :=
  match d with
  | DirRead.ok entries =>
    ((entries.filter (fun e =>
        e.isDir && !(firstCharIsDot e.name) && isGitRepo e.gitMarker)).map
      (fun e => e.name), none)
  | DirRead.errNotExist => ([], some ScanErr.notExist)
  | DirRead.errOther => ([], some ScanErr.other)

/-- The error handling both callers apply to `scanLocalRepos` (sync.go
198-201 and 543-546): `if err != nil && !os.IsNotExist(err)` aborts; a
not-exist error is tolerated and the scan's (empty) result is used. -/
def scanForCaller (d : DirRead) : Except String (List String) :=
  match scanLocalRepos d with
  | (_, some ScanErr.other) => Except.error "failed to scan local repos"
  | (repos, _) => Except.ok repos

/-! ## Provider connectors: page decoding and filtering

A repository as the provider's JSON reports it, with the flags the three
connectors' decoders mention.  `GitHubRepo` (part_005 lines 20-25) keeps
`full_name`, `archived`, `disabled`; `GiteaRepo` (gitea.go lines 20-25) keeps
`full_name`, `archived`, `empty`; `BitbucketRepo` (bitbucket.go lines 20-24)
keeps only `full_name` and `is_private`, so the flags below are simply
dropped by its decoding. -/

structure ProviderRepo where
  fullName : String
  archived : Bool
  disabled : Bool
  empty : Bool
deriving DecidableEq, Repr

/-- `GitHubConnector.fetchRepoPage` (part_005 lines 158-192), the per-page
name extraction: skip a repo when `Archived || Disabled`, keep `FullName`. -/
def githubFetchRepoPage (page : List ProviderRepo) : List String :=
  (page.filter (fun r => !(r.archived || r.disabled))).map (fun r => r.fullName)

/-- `GiteaConnector.fetchRepoPage` (gitea.go lines 162-189): skip a repo when
`Archived || Empty`, keep `FullName`. -/
def giteaFetchRepoPage (page : List ProviderRepo) : List String :=
  (page.filter (fun r => !(r.archived || r.empty))).map (fun r => r.fullName)

/-- `BitbucketConnector.listReposCloud` (bitbucket.go lines 133-163), the
per-page name extraction: every `response.Values` entry's `FullName` is
appended; no flag is consulted (the decoded struct does not even retain
`archived`/`empty` style fields). -/
def bitbucketCloudPage (page : List ProviderRepo) : List String :=
  page.map (fun r => r.fullName)

/-- `GitHubConnector.ListRepos` accumulated over its pages. -/
def githubListRepos (pages : List (List ProviderRepo)) : List String :=
  (pages.map githubFetchRepoPage).flatten

/-- `GiteaConnector.ListRepos` accumulated over its pages. -/
def giteaListRepos (pages : List (List ProviderRepo)) : List String :=
  (pages.map giteaFetchRepoPage).flatten

/-- `BitbucketConnector.listReposCloud` accumulated over its pages. -/
def bitbucketCloudListRepos (pages : List (List ProviderRepo)) : List String :=
  (pages.map bitbucketCloudPage).flatten

/-! ## Connector types and credential lookup

`ConnectorType` (part_005 lines 217-224; in Go a string type whose three
used values are the constants below — `connector.New` rejects any other, and
`GetConnectorType` only ever produces these three).  The ambient process
environment, as it stands after `LoadCredentialsEnv` has merged
`credentials.env` into it, is modelled as a total function `env` returning
`""` for unset variables, exactly as Go's `os.Getenv` does.  The parsed
`gh` CLI `hosts.yml` is modelled as `none` when the file cannot be read or
parsed, and otherwise as an association list from host to its entry. -/

inductive ConnectorType
  | github
  | gitea
  | bitbucket
deriving DecidableEq, Repr

/-- `connector.GetEnvVarName` (part_005 lines 412-424). -/
def getEnvVarName : ConnectorType → String
  | ConnectorType.github => "GITHUB_TOKEN"
  | ConnectorType.gitea => "GITEA_TOKEN"
  | ConnectorType.bitbucket => "BITBUCKET_TOKEN"

/-- One host's record in the gh CLI `hosts.yml` (part_005 lines 377-381). -/
structure GhHostEntry where
  oauthToken : String
  user : String
deriving DecidableEq, Repr

/-- `connector.getGhCliToken` (part_005 lines 383-410): `""` when the hosts
file is unreadable or unparsable, else the host's `oauth_token` (or `""` when
the host has no entry). -/
def getGhCliToken (ghHosts : Option (List (String × GhHostEntry))) (host : String) : String :=
  match ghHosts with
  | none => ""
  | some hosts =>
    match hosts.lookup host with
    | some entry => entry.oauthToken
    | none => ""

/-- `connector.GetToken` (part_005 lines 358-375): for GitHub, `GITHUB_TOKEN`
if non-empty, else the gh CLI token for `github.com`; for Gitea and Bitbucket
the corresponding environment variable. -/
def getToken (env : String → String)
    (ghHosts : Option (List (String × GhHostEntry))) : ConnectorType → String
  | ConnectorType.github =>
    let tok := env "GITHUB_TOKEN"
    if tok ≠ "" then tok else getGhCliToken ghHosts "github.com"
  | ConnectorType.gitea => env "GITEA_TOKEN"
  | ConnectorType.bitbucket => env "BITBUCKET_TOKEN"

/-- Whether a character list starts with another (helper for `charsContains`). -/
def charsStartWith : List Char → List Char → Bool
  | _, [] => true
  | [], _ :: _ => false
  | c :: cs, p :: ps => c = p && charsStartWith cs ps

/-- Model of `strings.Contains(s, sub)` on character lists. -/
def charsContains : List Char → List Char → Bool
  | _, [] => true
  | [], _ :: _ => false
  | c :: cs, p :: ps => charsStartWith (c :: cs) (p :: ps) || charsContains cs (p :: ps)

/-- Model of `strings.Contains`. -/
def strContains (s sub : String) : Bool :=
  charsContains s.data sub.data

/-- `connector.DetectType` (part_005 lines 240-254): substring match on the
lowercased host, defaulting to Gitea. -/
def detectType (host : String) : ConnectorType :=
  let h := String.mk (host.data.map Char.toLower)
  if strContains h "github.com" then ConnectorType.github
  else if strContains h "bitbucket.org" then ConnectorType.bitbucket
  else if strContains h "gitea.com" then ConnectorType.gitea
  else ConnectorType.gitea

/-! ## The configuration model

`config.Source`, restricted to the fields the sync engine reads (the config
version `sync.go` compiles against: `Repos` is the list of full-name strings,
`Strategy` includes `regex`, `RegexStrategy.Pattern` is a string).  The Go
zero value of the optional `Type` field is `""`. -/

inductive Strategy
  | manual
  | all
  | file
  | regex
deriving DecidableEq, Repr

structure Source where
  name : String
  sourceStr : String
  strategy : Strategy
  typeField : String
  regexPattern : String
  localPath : String
  repos : List String
deriving DecidableEq, Repr

/-- `Source.GetHost` (config.go lines 145-151): the part before the first
`/`, or the whole string when there is none. -/
def getHost (s : Source) : String :=
  match s.sourceStr.data.findIdx? (fun c => c = '/') with
  | some i => String.mk (s.sourceStr.data.take i)
  | none => s.sourceStr

/-- `Source.GetUserOrOrg` (config.go lines 154-159): the part after the first
`/`, or `""` when there is none. -/
def getUserOrOrg (s : Source) : String :=
  match s.sourceStr.data.findIdx? (fun c => c = '/') with
  | some i => String.mk (s.sourceStr.data.drop (i + 1))
  | none => ""

/-- `Source.GetConnectorType` (config.go / CHANGELOG config lines 471-486):
an explicit `type` field wins, case-insensitively; otherwise the type is
detected from the host. -/
def getConnectorType (s : Source) : ConnectorType :=
  let t := String.mk (s.typeField.data.map Char.toLower)
  if s.typeField ≠ "" ∧ t = "github" then ConnectorType.github
  else if s.typeField ≠ "" ∧ t = "gitea" then ConnectorType.gitea
  else if s.typeField ≠ "" ∧ t = "bitbucket" then ConnectorType.bitbucket
  else detectType (getHost s)

/-! ## Strategy resolution with its network trace

`NetEvent.listRepos` marks the one provider enumeration a resolution run can
make (`conn.ListRepos`, sync.go line 139).  Since the connector call is an
external HTTP interaction, its outcome is a parameter `listOutcome`.
A compiled regex is an external value too: `RegexEngine.compile` models
`regexp.Compile`, which deterministically either rejects a pattern string or
yields a matcher. -/

inductive NetEvent
  | listRepos
deriving DecidableEq, Repr

structure RegexEngine where
  compile : String → Except String (String → Bool)

/-- `filterReposByRegex` (sync.go lines 147-163): compile the pattern, then
keep the full names it matches. -/
def filterReposByRegex (eng : RegexEngine) (repos : List String)
    (pattern : String) : Except String (List String) :=
  match eng.compile pattern with
  | Except.error e => Except.error ("failed to compile regex: " ++ e)
  | Except.ok re => Except.ok (repos.filter (fun repo => re repo))

/-- `fetchReposFromAPI` (sync.go lines 116-145), with its event trace: the
token check and the user/org check happen before the connector performs any
network enumeration; only when both pass does `ListRepos` run (`connector.New`
cannot fail for the three types `GetConnectorType` produces). -/
def fetchReposFromAPI (env : String → String)
    (ghHosts : Option (List (String × GhHostEntry))) (src : Source)
    (listOutcome : Except String (List String)) :
    List NetEvent × Except String (List String) :=
  let connType := getConnectorType src
  let token := getToken env ghHosts connType
  if token = "" then
    ([], Except.error ("no token found - set " ++ getEnvVarName connType ++
      " or run 'ag connect'"))
  else if getUserOrOrg src = "" then
    ([], Except.error "source must include user/org (e.g., github.com/username)")
  else
    ([NetEvent.listRepos],
      match listOutcome with
      | Except.ok repos => Except.ok repos
      | Except.error e => Except.error ("failed to list repos: " ++ e))

/-- The strategy switch of `ComputeSourceStatus` (sync.go lines 509-533; the
switch in `Run`, lines 66-99, runs the same fetch-then-filter sequence and
differs only in how the error is reported): `manual` uses the declared
repos, `all` and `regex` fetch from the API first, and `regex` compiles and
applies its pattern only after the fetch has returned. -/
def resolveStrategy (env : String → String)
    (ghHosts : Option (List (String × GhHostEntry))) (eng : RegexEngine)
    (src : Source) (listOutcome : Except String (List String)) :
    List NetEvent × Except String (List String) :=
  match src.strategy with
  | Strategy.manual => ([], Except.ok src.repos)
  | Strategy.all =>
    let r := fetchReposFromAPI env ghHosts src listOutcome
    (r.1, match r.2 with
      | Except.error e => Except.error ("failed to fetch repos: " ++ e)
      | Except.ok repos => Except.ok repos)
  | Strategy.regex =>
    let r := fetchReposFromAPI env ghHosts src listOutcome
    (r.1, match r.2 with
      | Except.error e => Except.error ("failed to fetch repos: " ++ e)
      | Except.ok repos =>
        match filterReposByRegex eng repos src.regexPattern with
        | Except.error e => Except.error ("invalid regex pattern: " ++ e)
        | Except.ok filtered => Except.ok filtered)
  | Strategy.file => ([], Except.error "file strategy not yet supported")

/-- A process environment with no token variables set. -/
def envNone : String → String := fun _ => ""

/-- A regex engine that is never consulted in the token-missing run. -/
def unusedEngine : RegexEngine := ⟨fun _ => Except.error "unused"⟩

/-- A self-hosted Gitea source using the `all` strategy. -/
def giteaAllSource : Source :=
  { name := "Work Gitea"
    sourceStr := "gitea.company.com/myuser"
    strategy := Strategy.all
    typeField := ""
    regexPattern := ""
    localPath := "/work/git"
    repos := [] }

/-- An environment holding only a Gitea token. -/
def envGiteaOnly : String → String :=
  fun v => if v = "GITEA_TOKEN" then "tok-123" else ""

/-- A regex engine rejecting every pattern, as `regexp.Compile` rejects `(`. -/
def failingEngine : RegexEngine := ⟨fun _ => Except.error "missing closing )"⟩

/-- A Gitea source whose regex pattern is the invalid `(`. -/
def giteaRegexSource : Source :=
  { name := "Work Gitea"
    sourceStr := "gitea.company.com/myuser"
    strategy := Strategy.regex
    typeField := ""
    regexPattern := "("
    localPath := "/work/git"
    repos := [] }

/-- A gh CLI `hosts.yml` with one `github.com` entry. -/
def ghHostsFixture : List (String × GhHostEntry) :=
  [("github.com", { oauthToken := "gho_secret", user := "octo" })]

/-! ## The orphan "add" disposition

`getOrphanedRepos` is sync.go lines 490-498; `guessFullName` lines 479-488;
`handleAddOrphans` is the `case "add"` branch of `syncSource` (lines
323-339): each orphan's guessed full name is appended to the source's repo
list, the added count is the orphan count, and the configuration is saved
exactly when a config path was supplied (`opts.ConfigPath != ""`). -/

def getOrphanedRepos (statuses : List RepoStatus) : List RepoStatus :=
  statuses.filter (fun s => s.status == DiffStatus.statusRemoved)

def guessFullName (source repoName : String) : String :=
  let parts := splitSlash source
  if 2 ≤ parts.length then (parts.getLast?.getD "") ++ "/" ++ repoName
  else repoName

structure AddOutcome where
  repos : List String
  added : Nat
  configSaved : Bool
deriving DecidableEq, Repr

def handleAddOrphans (sourceStr : String) (repos : List String)
    (statuses : List RepoStatus) (configPath : String) : AddOutcome :=
  let orphaned := getOrphanedRepos statuses
  { repos := repos ++ orphaned.map (fun r => guessFullName sourceStr r.name)
    added := orphaned.length
    configSaved := configPath != "" }

/-- A status list holding one orphan `z` and one unchanged declared repo. -/
def orphanFixture : List RepoStatus :=
  [{ name := "z", fullName := "", localPath := "/r/z",
     status := DiffStatus.statusRemoved, inConfig := false, existsLocal := true },
   { name := "x", fullName := "arch-err/x", localPath := "/r/x",
     status := DiffStatus.statusUnchanged, inConfig := true, existsLocal := true }]

/-! ## The parallel clone engine

`cloneReposParallel` (sync.go lines 366-425) clamps the worker count, opens a
jobs channel and a results channel both sized to the job count, sends every
job once, and collects one result per job in completion order.
`cloneWorker` (lines 427-442) performs exactly one `git.Clone` per received
job and emits exactly one `cloneResult` for it.  The outcome of the external
`git.Clone` call for a job is a parameter `cloneErr` (`none` = success).  A
run of the pool is modelled by (a) a distribution `dist` of the job list over
the workers — the channel delivers each sent job to exactly one worker, so
the per-worker lists jointly form a permutation of the job list — and (b) a
collection order: the results channel yields the workers' outputs in some
interleaving, i.e. a permutation of their concatenation. -/

structure CloneResult where
  name : String
  success : Bool
  err : Option String
deriving DecidableEq, Repr

/-- The single result `cloneWorker` emits for one job (sync.go 430-440). -/
def mkCloneResult (cloneErr : RepoStatus → Option String) (st : RepoStatus) : CloneResult :=
  { name := st.fullName
    success := (cloneErr st).isNone
    err := cloneErr st }

/-- `cloneWorker`: one result per received job, in order. -/
def cloneWorker (cloneErr : RepoStatus → Option String)
    (received : List RepoStatus) : List CloneResult :=
  received.map (mkCloneResult cloneErr)

/-- The worker-count clamp of `cloneReposParallel` (sync.go 367-374):
non-positive requests become 4, then the count is capped at the job count. -/
def clampWorkers (numWorkers : Int) (numRepos : Nat) : Nat :=
  let w := if numWorkers ≤ 0 then 4 else numWorkers.toNat
  if numRepos < w then numRepos else w

/-- The success count `cloneReposParallel` returns (sync.go 402-411). -/
def clonedCount (outcomes : List CloneResult) : Nat :=
  (outcomes.filter (fun r => r.success)).length

def stX : RepoStatus :=
  { name := "x", fullName := "a/x", localPath := "/r/x",
    status := DiffStatus.statusAdded, inConfig := true, existsLocal := false }

def stY : RepoStatus :=
  { name := "y", fullName := "a/y", localPath := "/r/y",
    status := DiffStatus.statusAdded, inConfig := true, existsLocal := false }

/-- A clone outcome function under which the clone of `a/y` is forced to
fail. -/
def cloneFailY : RepoStatus → Option String :=
  fun st => if st.name = "y" then some "git clone failed: exit status 128" else none

/-! ## Theorems -/

theorem statusNames_append (s : DiffStatus) (l₁ l₂ : List RepoStatus) :
    statusNames s (l₁ ++ l₂) = statusNames s l₁ ++ statusNames s l₂ := by
  simp [statusNames, List.filter_append]

theorem statusNames_unchanged_declared (lp : String) (repos ls : List String) :
    statusNames DiffStatus.statusUnchanged (declaredStatuses lp repos ls) =
      (configuredRepos repos).filter (fun n => ls.contains n) := by
  induction repos with
  | nil => rfl
  | cons r rs ih =>
    by_cases hc : repoNameFromFullName r ∈ ls <;>
      simp_all [declaredStatuses, statusNames, configuredRepos, List.filter_cons]

theorem statusNames_added_declared (lp : String) (repos ls : List String) :
    statusNames DiffStatus.statusAdded (declaredStatuses lp repos ls) =
      (configuredRepos repos).filter (fun n => !(ls.contains n)) := by
  induction repos with
  | nil => rfl
  | cons r rs ih =>
    by_cases hc : repoNameFromFullName r ∈ ls <;>
      simp_all [declaredStatuses, statusNames, configuredRepos, List.filter_cons]

theorem statusNames_removed_declared (lp : String) (repos ls : List String) :
    statusNames DiffStatus.statusRemoved (declaredStatuses lp repos ls) = [] := by
  induction repos with
  | nil => rfl
  | cons r rs ih =>
    by_cases hc : repoNameFromFullName r ∈ ls <;>
      simp_all [declaredStatuses, statusNames, List.filter_cons]

theorem statusNames_orphans (s : DiffStatus) (lp : String) (repos ls : List String) :
    statusNames s (orphanStatuses lp repos ls) =
      if s = DiffStatus.statusRemoved then
        ls.filter (fun n => !((configuredRepos repos).contains n))
      else [] := by
  cases s <;>
    simp [statusNames, orphanStatuses, List.filter_map, Function.comp, List.map_map]
  exact List.map_id _

theorem names_computeStatuses (lp : String) (repos ls : List String) :
    (computeStatuses lp repos ls).map (fun r => r.name) =
      configuredRepos repos ++ ls.filter (fun n => !((configuredRepos repos).contains n)) := by
  unfold computeStatuses declaredStatuses orphanStatuses
  rw [List.map_append, List.map_map, List.map_map]
  exact congrArg₂ (· ++ ·) rfl (List.map_id _)

/-- C1: for every declared full-name list, every enumeration `ls` of the local
basename set and every basename `b`: `b` is classified unchanged exactly when
it is declared and local, to-create (`StatusAdded`) exactly when declared only,
orphaned (`StatusRemoved`) exactly when local only; and the basenames appearing
in the output are exactly the union of the two sets.  Disjointness and
exhaustiveness of the three classes over the union follow from these four
equivalences. -/
theorem computeStatuses_partition (lp : String) (repos ls : List String) (b : String) :
    (b ∈ statusNames DiffStatus.statusUnchanged (computeStatuses lp repos ls) ↔
      b ∈ configuredRepos repos ∧ b ∈ ls)
    ∧ (b ∈ statusNames DiffStatus.statusAdded (computeStatuses lp repos ls) ↔
      b ∈ configuredRepos repos ∧ b ∉ ls)
    ∧ (b ∈ statusNames DiffStatus.statusRemoved (computeStatuses lp repos ls) ↔
      b ∈ ls ∧ b ∉ configuredRepos repos)
    ∧ (b ∈ (computeStatuses lp repos ls).map (fun r => r.name) ↔
      b ∈ configuredRepos repos ∨ b ∈ ls) := by
  have hU := statusNames_unchanged_declared lp repos ls
  have hA := statusNames_added_declared lp repos ls
  have hR := statusNames_removed_declared lp repos ls
  have hO := fun s => statusNames_orphans s lp repos ls
  refine ⟨?_, ?_, ?_, ?_⟩
  · rw [computeStatuses, statusNames_append, hU, hO]
    simp [List.mem_filter]
  · rw [computeStatuses, statusNames_append, hA, hO]
    simp [List.mem_filter]
  · rw [computeStatuses, statusNames_append, hR, hO]
    simp [List.mem_filter, And.comm]
  · rw [names_computeStatuses]
    simp only [List.mem_append, List.mem_filter, List.elem_iff, Bool.not_eq_true]
    constructor
    · rintro (h | ⟨h, _⟩)
      · exact Or.inl h
      · exact Or.inr h
    · rintro (h | h)
      · exact Or.inl h
      · by_cases hc : b ∈ configuredRepos repos
        · exact Or.inl hc
        · exact Or.inr ⟨h, by simpa using hc⟩

/-- C3 (amended): the output always consists of the declared entries' statuses
first, in source order, followed by the orphan statuses in the order the local
map is enumerated; the declared prefix depends only on the local *set* (it is
identical for any two enumerations of the same set), and the orphan suffix is
determined by the local set only up to permutation — the code iterates a Go
map, whose `range` order is unspecified, so the orphan *order* is not a
function of the inputs. -/
theorem computeStatuses_order (lp : String) (repos ls₁ ls₂ : List String)
    (h : ls₁.Perm ls₂) :
    computeStatuses lp repos ls₁ =
      declaredStatuses lp repos ls₁ ++ orphanStatuses lp repos ls₁
    ∧ declaredStatuses lp repos ls₁ = declaredStatuses lp repos ls₂
    ∧ (orphanStatuses lp repos ls₁).Perm (orphanStatuses lp repos ls₂) := by
  have hmem : ∀ n, ls₁.contains n = ls₂.contains n := fun n => by
    simp [h.mem_iff]
  refine ⟨rfl, ?_, ?_⟩
  · unfold declaredStatuses
    exact List.map_congr_left (fun repo _ => by simp only [hmem])
  · unfold orphanStatuses
    exact ((h.filter _).map _)

/-- Witness for `computeStatuses_order` at a concrete input: declared entry
`a/x`, local set `{x, z}` enumerated in its two possible orders. -/
theorem computeStatuses_order_witness :
    computeStatuses "/r" ["a/x"] ["x", "z"] =
      declaredStatuses "/r" ["a/x"] ["x", "z"] ++ orphanStatuses "/r" ["a/x"] ["x", "z"]
    ∧ declaredStatuses "/r" ["a/x"] ["x", "z"] = declaredStatuses "/r" ["a/x"] ["z", "x"]
    ∧ (orphanStatuses "/r" ["a/x"] ["x", "z"]).Perm (orphanStatuses "/r" ["a/x"] ["z", "x"]) :=
  computeStatuses_order "/r" ["a/x"] ["x", "z"] ["z", "x"] (by decide)

/-- Counterexample to C3 as stated: with no declared entries and the local set
`{x, z}`, the two possible map-enumeration orders of the same local set yield
*differently ordered* outputs, so two runs on the same inputs need not produce
the identical ordered output and orphans need not appear in local-scan order. -/
theorem computeStatuses_order_cex :
    (["x", "z"] : List String).Perm ["z", "x"]
    ∧ computeStatuses "/r" [] ["x", "z"] ≠ computeStatuses "/r" [] ["z", "x"] := by
  decide

/-- C5 (amended): the output cardinality is always
`|declared entries| + |local basenames not among declared basenames|`; the
no-duplicate-basename part holds under the additional assumptions that the
declared entries' basenames are pairwise distinct and that the local
enumeration lists each local basename once (declared entries with colliding
basenames each emit their own status, see `computeStatuses_dup_basenames`). -/
theorem computeStatuses_cardinality (lp : String) (repos ls : List String) :
    (computeStatuses lp repos ls).length =
      repos.length + (ls.filter (fun n => !((configuredRepos repos).contains n))).length
    ∧ ((configuredRepos repos).Nodup → ls.Nodup →
        ((computeStatuses lp repos ls).map (fun r => r.name)).Nodup) := by
  constructor
  · simp [computeStatuses, declaredStatuses, orphanStatuses]
  · intro h1 h2
    rw [names_computeStatuses, List.nodup_append]
    refine ⟨h1, h2.filter _, ?_⟩
    intro a ha hfa
    have hna := (List.mem_filter.mp hfa).2
    simp at hna
    exact hna ha

/-- Counterexample to C5 as stated: two declared entries `a/x` and `b/x` share
the basename `x`, and the output emits that basename twice. -/
theorem computeStatuses_dup_basenames :
    ((computeStatuses "/r" ["a/x", "b/x"] []).map (fun r => r.name)) = ["x", "x"]
    ∧ ¬ ((computeStatuses "/r" ["a/x", "b/x"] []).map (fun r => r.name)).Nodup := by
  decide

/-- C8: the scanner looks only at first-level entries: a basename is reported
exactly when some entry of the root directory has that name, is a directory,
is not hidden (dot-prefixed), and contains a `.git` marker directory — a
binary classification.  A missing root is treated by the callers as an empty
result, not as a hard failure, while any other read error is. -/
theorem scanLocalRepos_spec (entries : List FsEntry) (b : String) :
    (b ∈ (scanLocalRepos (DirRead.ok entries)).1 ↔
      ∃ e ∈ entries, e.name = b ∧ e.isDir = true ∧
        firstCharIsDot e.name = false ∧ e.gitMarker = GitMarker.dir)
    ∧ scanForCaller (DirRead.ok entries) = Except.ok ((scanLocalRepos (DirRead.ok entries)).1)
    ∧ scanForCaller DirRead.errNotExist = Except.ok []
    ∧ scanForCaller DirRead.errOther = Except.error "failed to scan local repos" := by
  refine ⟨?_, rfl, rfl, rfl⟩
  simp only [scanLocalRepos, List.mem_map, List.mem_filter]
  constructor
  · rintro ⟨e, ⟨he, hcond⟩, rfl⟩
    simp only [Bool.and_eq_true, Bool.not_eq_true] at hcond
    obtain ⟨⟨hdir, hdot⟩, h3⟩ := hcond
    refine ⟨e, he, rfl, hdir, by simpa using hdot, ?_⟩
    cases hm : e.gitMarker <;> simp [isGitRepo, hm] at h3 ⊢
  · rintro ⟨e, he, rfl, hdir, hdot, hgit⟩
    exact ⟨e, ⟨he, by simp [hdir, hdot, hgit, isGitRepo]⟩, rfl⟩

theorem mem_githubFetchRepoPage (page : List ProviderRepo) (s : String) :
    s ∈ githubFetchRepoPage page ↔
      ∃ r ∈ page, r.fullName = s ∧ r.archived = false ∧ r.disabled = false := by
  simp only [githubFetchRepoPage, List.mem_map, List.mem_filter]
  constructor
  · rintro ⟨r, ⟨hr, hflag⟩, rfl⟩
    simp only [Bool.not_eq_true', Bool.or_eq_false_iff] at hflag
    exact ⟨r, hr, rfl, hflag.1, hflag.2⟩
  · rintro ⟨r, hr, rfl, h1, h2⟩
    exact ⟨r, ⟨hr, by simp [h1, h2]⟩, rfl⟩

theorem mem_giteaFetchRepoPage (page : List ProviderRepo) (s : String) :
    s ∈ giteaFetchRepoPage page ↔
      ∃ r ∈ page, r.fullName = s ∧ r.archived = false ∧ r.empty = false := by
  simp only [giteaFetchRepoPage, List.mem_map, List.mem_filter]
  constructor
  · rintro ⟨r, ⟨hr, hflag⟩, rfl⟩
    simp only [Bool.not_eq_true', Bool.or_eq_false_iff] at hflag
    exact ⟨r, hr, rfl, hflag.1, hflag.2⟩
  · rintro ⟨r, hr, rfl, h1, h2⟩
    exact ⟨r, ⟨hr, by simp [h1, h2]⟩, rfl⟩

/-- C4 (amended): GitHub's enumeration excludes exactly the repositories
flagged archived or disabled, Gitea's excludes exactly those flagged archived
or empty, but Bitbucket Cloud's enumeration applies no such filter: a name is
returned exactly when some reported repository carries it, whatever its
flags. -/
theorem connector_filtering (pages : List (List ProviderRepo)) (s : String) :
    (s ∈ githubListRepos pages ↔
      ∃ page ∈ pages, ∃ r ∈ page,
        r.fullName = s ∧ r.archived = false ∧ r.disabled = false)
    ∧ (s ∈ giteaListRepos pages ↔
      ∃ page ∈ pages, ∃ r ∈ page,
        r.fullName = s ∧ r.archived = false ∧ r.empty = false)
    ∧ (s ∈ bitbucketCloudListRepos pages ↔
      ∃ page ∈ pages, ∃ r ∈ page, r.fullName = s) := by
  refine ⟨?_, ?_, ?_⟩
  · simp [githubListRepos, List.mem_flatten, mem_githubFetchRepoPage]
  · simp [giteaListRepos, List.mem_flatten, mem_giteaFetchRepoPage]
  · simp [bitbucketCloudListRepos, bitbucketCloudPage, List.mem_flatten]

/-- Counterexample to C4 as stated: a Bitbucket Cloud page whose only
repository is reported as archived (and empty) is returned in full — the
archived repository is not excluded. -/
theorem bitbucket_returns_archived :
    ({ fullName := "ws/old", archived := true, disabled := false,
       empty := true } : ProviderRepo).archived = true
    ∧ bitbucketCloudListRepos
        [[{ fullName := "ws/old", archived := true, disabled := false,
            empty := true }]] = ["ws/old"] := by
  decide

/-- C7: when no token is available for the source's provider, resolution of
an enumeration strategy (`all` or `regex`) fails with no network event at
all, and the error names the provider's expected credential environment
variable (`GITHUB_TOKEN` / `GITEA_TOKEN` / `BITBUCKET_TOKEN`), not a generic
auth error. -/
theorem resolve_fails_fast_without_token (env : String → String)
    (ghHosts : Option (List (String × GhHostEntry))) (eng : RegexEngine)
    (src : Source) (listOutcome : Except String (List String))
    (hstrat : src.strategy = Strategy.all ∨ src.strategy = Strategy.regex)
    (htok : getToken env ghHosts (getConnectorType src) = "") :
    resolveStrategy env ghHosts eng src listOutcome =
      ([], Except.error ("failed to fetch repos: " ++
        ("no token found - set " ++ getEnvVarName (getConnectorType src) ++
          " or run 'ag connect'")))
    ∧ getEnvVarName ConnectorType.github = "GITHUB_TOKEN"
    ∧ getEnvVarName ConnectorType.gitea = "GITEA_TOKEN"
    ∧ getEnvVarName ConnectorType.bitbucket = "BITBUCKET_TOKEN" := by
  refine ⟨?_, rfl, rfl, rfl⟩
  rcases hstrat with h | h <;>
    simp [resolveStrategy, h, fetchReposFromAPI, htok]

/-- Witness for `resolve_fails_fast_without_token`: with an empty environment
and no gh CLI file, resolving the Gitea `all` source performs no enumeration
and reports the `GITEA_TOKEN` variable by name. -/
theorem resolve_fails_fast_without_token_witness :
    resolveStrategy envNone none unusedEngine giteaAllSource (Except.ok []) =
      ([], Except.error ("failed to fetch repos: " ++
        ("no token found - set " ++ getEnvVarName (getConnectorType giteaAllSource) ++
          " or run 'ag connect'")))
    ∧ getEnvVarName ConnectorType.github = "GITHUB_TOKEN"
    ∧ getEnvVarName ConnectorType.gitea = "GITEA_TOKEN"
    ∧ getEnvVarName ConnectorType.bitbucket = "BITBUCKET_TOKEN" :=
  resolve_fails_fast_without_token envNone none unusedEngine giteaAllSource
    (Except.ok []) (Or.inl rfl) rfl

/-- C2 (amended): a regex pattern that fails to compile makes resolution fail
with the distinct "invalid regex pattern" error, but only *after* the
provider enumeration has run: whenever a token is available and the source
names a user/org, the network enumeration event precedes pattern
compilation, so an invalid pattern does not prevent the enumeration side
effect.  (An invalid pattern is rejected with no network call only earlier,
at configuration-load time, by `Config.Validate`.) -/
theorem regex_invalid_pattern_fails_after_fetch (env : String → String)
    (ghHosts : Option (List (String × GhHostEntry))) (eng : RegexEngine)
    (src : Source) (repos : List String) (e : String)
    (hstrat : src.strategy = Strategy.regex)
    (htok : getToken env ghHosts (getConnectorType src) ≠ "")
    (huser : getUserOrOrg src ≠ "")
    (hcompile : eng.compile src.regexPattern = Except.error e) :
    resolveStrategy env ghHosts eng src (Except.ok repos) =
      ([NetEvent.listRepos],
        Except.error ("invalid regex pattern: " ++
          ("failed to compile regex: " ++ e))) := by
  simp [resolveStrategy, hstrat, fetchReposFromAPI, htok, huser,
    filterReposByRegex, hcompile]

/-- Witness for `regex_invalid_pattern_fails_after_fetch` at concrete inputs. -/
theorem regex_invalid_pattern_fails_after_fetch_witness :
    resolveStrategy envGiteaOnly none failingEngine giteaRegexSource
        (Except.ok ["myuser/a"]) =
      ([NetEvent.listRepos],
        Except.error ("invalid regex pattern: " ++
          ("failed to compile regex: " ++ "missing closing )"))) :=
  regex_invalid_pattern_fails_after_fetch envGiteaOnly none failingEngine
    giteaRegexSource ["myuser/a"] "missing closing )" rfl (by decide) (by decide) rfl

/-- Counterexample to C2 as stated: resolving the source whose pattern `(`
fails to compile still performs the provider enumeration — the trace of the
run holds the `listRepos` network event, so the failure does *not* happen
before a network call. -/
theorem regex_invalid_pattern_still_enumerates :
    failingEngine.compile "(" = Except.error "missing closing )"
    ∧ (resolveStrategy envGiteaOnly none failingEngine giteaRegexSource
        (Except.ok ["myuser/a"])).1 = [NetEvent.listRepos] := by
  exact ⟨rfl, by decide⟩

/-- C10: GitHub token lookup does not stop at `GITHUB_TOKEN`: when that
variable is empty/unset, `GetToken` returns the `oauth_token` recorded for
`github.com` in the gh CLI's `hosts.yml`, so a non-empty recorded token makes
enumeration possible with no provider environment variable set. -/
theorem github_token_gh_cli_fallback (env : String → String)
    (hosts : List (String × GhHostEntry)) (entry : GhHostEntry)
    (henv : env "GITHUB_TOKEN" = "")
    (hlookup : hosts.lookup "github.com" = some entry) :
    getToken env (some hosts) ConnectorType.github = entry.oauthToken
    ∧ (entry.oauthToken ≠ "" →
        getToken env (some hosts) ConnectorType.github ≠ "") := by
  have h : getToken env (some hosts) ConnectorType.github = entry.oauthToken := by
    simp [getToken, henv, getGhCliToken, hlookup]
  exact ⟨h, fun hne => h ▸ hne⟩

/-- Witness for `github_token_gh_cli_fallback`: with an empty environment the
token comes from the hosts file and is non-empty. -/
theorem github_token_gh_cli_fallback_witness :
    getToken envNone (some ghHostsFixture) ConnectorType.github =
      ({ oauthToken := "gho_secret", user := "octo" } : GhHostEntry).oauthToken
    ∧ (({ oauthToken := "gho_secret", user := "octo" } : GhHostEntry).oauthToken ≠ "" →
        getToken envNone (some ghHostsFixture) ConnectorType.github ≠ "") :=
  github_token_gh_cli_fallback envNone ghHostsFixture
    { oauthToken := "gho_secret", user := "octo" } rfl rfl

theorem splitSlashAux_append (xs ys acc : List Char) :
    splitSlashAux (xs ++ '/' :: ys) acc = splitSlashAux xs acc ++ splitSlashAux ys [] := by
  induction xs generalizing acc with
  | nil => simp [splitSlashAux]
  | cons c cs ih =>
    by_cases hc : c = '/'
    · subst hc
      simp [splitSlashAux, ih]
    · simp [splitSlashAux, hc, ih]

theorem splitSlashAux_no_slash (l acc : List Char) (h : '/' ∉ l) :
    splitSlashAux l acc = [String.mk (acc.reverse ++ l)] := by
  induction l generalizing acc with
  | nil => simp [splitSlashAux]
  | cons c cs ih =>
    simp only [List.mem_cons, not_or] at h
    have hc : ¬ (c = '/') := fun e => h.1 e.symm
    rw [splitSlashAux, if_neg hc, ih _ h.2]
    simp

theorem splitSlashAux_ne_nil (l acc : List Char) : splitSlashAux l acc ≠ [] := by
  induction l generalizing acc with
  | nil => simp [splitSlashAux]
  | cons c cs ih =>
    rw [splitSlashAux]
    split
    · simp
    · exact ih _

theorem splitSlash_concat (host owner : String) (h : '/' ∉ owner.data) :
    splitSlash (host ++ "/" ++ owner) = splitSlash host ++ [owner] := by
  unfold splitSlash
  have hd : (host ++ "/" ++ owner).data = host.data ++ '/' :: owner.data := by
    simp [String.data_append]
  rw [hd, splitSlashAux_append, splitSlashAux_no_slash _ _ h]
  rfl

theorem guessFullName_eq (host owner n : String) (h : '/' ∉ owner.data) :
    guessFullName (host ++ "/" ++ owner) n = owner ++ "/" ++ n := by
  unfold guessFullName
  rw [splitSlash_concat host owner h]
  have hne : splitSlash host ≠ [] := splitSlashAux_ne_nil _ _
  have hlen : 2 ≤ (splitSlash host ++ [owner]).length := by
    have : 1 ≤ (splitSlash host).length := List.length_pos.mpr hne
    simp only [List.length_append, List.length_cons, List.length_nil]
    omega
  rw [if_pos hlen, List.getLast?_concat]
  rfl

/-- C9: under the add disposition, for a source string of the form
`host/owner` (owner containing no further `/`), every orphan contributes the
declared full name `owner ++ "/" ++ basename` appended to the source's
repository list in orphan order, the added count is the orphan count, and —
when a config path is supplied, as the CLI always does — the updated
configuration is saved. -/
theorem add_disposition (host owner : String) (repos : List String)
    (statuses : List RepoStatus) (configPath : String)
    (howner : '/' ∉ owner.data) (hcp : configPath ≠ "") :
    handleAddOrphans (host ++ "/" ++ owner) repos statuses configPath =
      { repos := repos ++ (getOrphanedRepos statuses).map (fun r => owner ++ "/" ++ r.name)
        added := (getOrphanedRepos statuses).length
        configSaved := true } := by
  have h1 : (getOrphanedRepos statuses).map
      (fun r => guessFullName (host ++ "/" ++ owner) r.name) =
      (getOrphanedRepos statuses).map (fun r => owner ++ "/" ++ r.name) :=
    List.map_congr_left fun r _ => guessFullName_eq host owner r.name howner
  have h2 : (configPath != "") = true := by simp [bne_iff_ne, hcp]
  simp [handleAddOrphans, h1, h2]

/-- Witness for `add_disposition` at a concrete GitHub source. -/
theorem add_disposition_witness :
    handleAddOrphans ("github.com" ++ "/" ++ "arch-err") ["arch-err/x"]
        orphanFixture "/home/u/.config/autogitter/config.yaml" =
      { repos := ["arch-err/x"] ++
          (getOrphanedRepos orphanFixture).map (fun r => "arch-err" ++ "/" ++ r.name)
        added := (getOrphanedRepos orphanFixture).length
        configSaved := true } :=
  add_disposition "github.com" "arch-err" ["arch-err/x"] orphanFixture
    "/home/u/.config/autogitter/config.yaml" (by decide) (by decide)

theorem length_filter_add_length_not {α : Type} (l : List α) (p : α → Bool) :
    (l.filter p).length + (l.filter (fun x => !(p x))).length = l.length := by
  induction l with
  | nil => rfl
  | cons a l ih =>
    by_cases h : p a <;> simp [List.filter_cons, h] <;> omega

/-- C6: every run of the pool — any distribution of the N jobs over the
`clampWorkers`-many workers and any collection order — produces exactly one
outcome per submitted job, N outcomes in total, however many clones fail:
the successes and failures together always count N. -/
theorem cloneReposParallel_outcomes (cloneErr : RepoStatus → Option String)
    (repos : List RepoStatus) (w : Int) (dist : List (List RepoStatus))
    (outcomes : List CloneResult)
    (_hw : dist.length = clampWorkers w repos.length)
    (hcover : dist.flatten.Perm repos)
    (hcollect : outcomes.Perm ((dist.map (cloneWorker cloneErr)).flatten)) :
    outcomes.length = repos.length
    ∧ clonedCount outcomes +
        (outcomes.filter (fun r => !r.success)).length = repos.length := by
  have hlen : outcomes.length = repos.length := by
    rw [hcollect.length_eq, List.length_flatten, List.map_map]
    have hcomp : (List.length ∘ cloneWorker cloneErr) = fun l : List RepoStatus => l.length := by
      funext l
      simp [cloneWorker]
    rw [hcomp, ← List.length_flatten, hcover.length_eq]
  exact ⟨hlen, by rw [clonedCount, length_filter_add_length_not, hlen]⟩

/-- Witness for `cloneReposParallel_outcomes`: two jobs, one worker, one
forced failure, results collected in reversed completion order — still
exactly two outcomes, one success plus one failure. -/
theorem cloneReposParallel_outcomes_witness :
    [mkCloneResult cloneFailY stY, mkCloneResult cloneFailY stX].length =
      [stX, stY].length
    ∧ clonedCount [mkCloneResult cloneFailY stY, mkCloneResult cloneFailY stX] +
        ([mkCloneResult cloneFailY stY, mkCloneResult cloneFailY stX].filter
          (fun r => !r.success)).length = [stX, stY].length :=
  cloneReposParallel_outcomes cloneFailY [stX, stY] 1 [[stX, stY]]
    [mkCloneResult cloneFailY stY, mkCloneResult cloneFailY stX]
    (by decide) (by decide) (by decide)

end Autogitter
